import Mathlib

/-!
Verification of `check_serial.py`: a shallow embedding of the program's
transport senders, server prober, orchestrator and verdict engine, with
theorems about the exit-code policy, retry bounds, TCP fallback, response
validation order and the master-handling invariants.

Network behaviour (DNS responses, timeouts, socket errors, address
resolution) is modelled by explicit oracles supplied as arguments, so that
every function of the program becomes a pure Lean function of its inputs
and its environment.
-/

namespace CheckSerial

/-- A decoded DNS query message, as built by `dns.message.make_query` plus the
flag/EDNS mutations done in `send_query`: the RD header bit, the DNSSEC-OK
request, and whether an EDNS NSID option was attached. -/
structure Query where
  rd : Bool
  wantDnssec : Bool
  nsidRequested : Bool
deriving DecidableEq

/-- One EDNS0 option of a response (`opt.otype`, `opt.nsid`). -/
structure EdnsOption where
  otype : Nat
  nsid : String
deriving DecidableEq

/-- `dns.edns.NSID` option code. -/
def NSID_OTYPE : Nat := 3

/-- `dns.rdatatype.SOA` type code. -/
def SOA_RDTYPE : Nat := 6

/-- One RRset of a response's answer section: its `rdtype` and the `serial`
field of its first record (`rrset[0].serial`, read only when the set is an
SOA set). -/
structure RRset where
  rdtype : Nat
  serial0 : Nat
deriving DecidableEq

/-- A decoded DNS response: response code, AA and TC header flags, the answer
section and the EDNS options. -/
structure Response where
  rcode : Nat
  flagAA : Bool
  flagTC : Bool
  answer : List RRset
  options : List EdnsOption
deriving DecidableEq

/-- The configuration state of the program (`Prefs`), restricted to the fields
the probing and verdict logic reads. -/
structure Config where
  use_tcp : Bool
  retries : Nat
  want_dnssec : Bool
  nsid : Bool
  allowed_drift : Int
  master : Option String
  no_nsset : Bool
  additional : List String

/-- Network behaviour of one server address: `udpAt q i` is the outcome of the
`i`-th UDP attempt with query `q` (`none` = timeout), `tcpAt q i` likewise for
TCP attempts, and `sockErr` records that the send raises `socket.error`. -/
structure HostNet where
  udpAt : Query → Nat → Option Response
  tcpAt : Query → Nat → Option Response
  sockErr : Bool

/-- The query built at the top of `send_query`: RD cleared, DNSSEC-OK from
`Prefs.WANT_DNSSEC`, NSID option attached iff `Prefs.NSID`. -/
def make_query (cfg : Config) : Query :=
  { rd := false, wantDnssec := cfg.want_dnssec, nsidRequested := cfg.nsid }

/-- `send_query_tcp`: a single `dns.query.tcp` call; a timeout yields `none`.
The second component counts transport attempts made (instrumentation): TCP
always makes exactly one. -/
def send_query_tcp (net : Nat → Option Response) : Option Response × Nat :=
  (net 0, 1)

/-- The retry loop of `send_query_udp`: `idx` is the index of the next attempt,
the fuel is the remaining retry budget. Returns the response (or `none` if the
budget ran out) and the total number of attempts made (instrumentation). -/
def send_query_udp_go (net : Nat → Option Response) : Nat → Nat → Option Response × Nat
  | idx, 0 => (none, idx)
  | idx, r + 1 =>
    match net idx with
    | some resp => (some resp, idx + 1)
    | none => send_query_udp_go net (idx + 1) r

/-- `send_query_udp`: up to `retries` UDP attempts, stopping at the first
response. -/
def send_query_udp (net : Nat → Option Response) (retries : Nat) :
    Option Response × Nat :=
  send_query_udp_go net 0 retries

/-- `send_query`: build the query; TCP-only if `Prefs.USE_TCP`; otherwise UDP
first, falling back to TCP with the same message when the UDP response has the
TC flag set. -/
def send_query (cfg : Config) (h : HostNet) : Option Response :=
  let msg := make_query cfg
  if cfg.use_tcp then (send_query_tcp (h.tcpAt msg)).1
  else
    match (send_query_udp (h.udpAt msg) cfg.retries).1 with
    | some r =>
      if r.flagTC then (send_query_tcp (h.tcpAt msg)).1 else some r
    | none => none

/-- Classification of the diagnostic printed by `get_serial` on a failed
probe; each constructor corresponds to one distinct `print` in the source. -/
inductive ProbeMsg where
  | socketError
  | noAnswer
  | badRcode
  | notAuthoritative
  | answerTruncated
  | noSoaRecord
deriving DecidableEq

/-- The value returned by `get_serial`, together with the classification of
the error message it printed (if any). -/
structure ProbeResult where
  serial : Option Nat
  nsid : Option String
  errmsg : Option ProbeMsg
deriving DecidableEq

/-- The NSID extraction loop of `get_serial`: every matching option overwrites
`nsid`, so the last NSID option wins. -/
def last_nsid (opts : List EdnsOption) : Option String :=
  opts.foldl (fun acc o => if o.otype == NSID_OTYPE then some o.nsid else acc) none

/-- `get_serial`: probe one address for the zone serial. `Except.error ()`
models an uncaught Python exception: with `Prefs.NSID` set and no response,
the source dereferences `resp.options` on `None` (an `AttributeError`). A
`socket.error` during the send is caught and returns `(None, None)`. -/
def get_serial (cfg : Config) (h : HostNet) : Except Unit ProbeResult :=
  if h.sockErr then .ok ⟨none, none, some .socketError⟩
  else
    let resp := send_query cfg h
    let checked : Option Nat × Option ProbeMsg :=
      match resp with
      | none => (none, some ProbeMsg.noAnswer)
      | some r =>
        if r.rcode ≠ 0 then (none, some ProbeMsg.badRcode)
        else if !r.flagAA then (none, some ProbeMsg.notAuthoritative)
        else if r.flagTC then (none, some ProbeMsg.answerTruncated)
        else
          match r.answer.find? (fun rr => rr.rdtype == SOA_RDTYPE) with
          | some rr => (some rr.serial0, none)
          | none => (none, some ProbeMsg.noSoaRecord)
    if cfg.nsid then
      match resp with
      | none => .error ()
      | some r => .ok ⟨checked.1, last_nsid r.options, checked.2⟩
    else .ok ⟨checked.1, none, checked.2⟩

/-- Python `max` over a non-empty list (junk value 0 on `[]`, which `max`
would reject; `get_exit_code` only reaches it on non-empty lists). -/
def pymax : List Nat → Nat
  | [] => 0
  | x :: xs => xs.foldl Nat.max x

/-- Python `min` over a non-empty list (junk value 0 on `[]`). -/
def pymin : List Nat → Nat
  | [] => 0
  | x :: xs => xs.foldl Nat.min x

/-- `get_exit_code`: the verdict engine. `none` models the uncaught
`IndexError` the source raises on `Stats.SERIAL_LIST[0]` when the serial list
is empty (reachable when every name resolves to zero addresses). -/
def get_exit_code (count_nsip : Nat) (serial_list : List Nat)
    (allowed_drift : Int) : Option Nat :=
  if count_nsip ≠ serial_list.length then some 2
  else
    match serial_list with
    | [] => none
    | s0 :: _ =>
      if serial_list.count s0 = serial_list.length then some 0
      else if (pymax serial_list : Int) - (pymin serial_list : Int) > allowed_drift then
        some 1
      else some 0

/-- `get_nsnames`: with `-n` the list is exactly the `-a` list (usage error,
`sys.exit(4)`, when that is empty, modelled as `Except.error ()`); otherwise
the `-a` list is concatenated with the zone's NS names sorted by name
(`sorted()` modelled by Mathlib's stable `insertionSort`). -/
def get_nsnames (no_nsset : Bool) (additional : List String)
    (zone_nsset : List String) : Except Unit (List String) :=
  if no_nsset then
    if additional.isEmpty then .error ()
    else .ok additional
  else .ok (additional ++ zone_nsset.insertionSort (· ≤ ·))

/-- The mutable run statistics (`Stats.COUNT_NSIP`, `Stats.SERIAL_LIST`),
plus `probed`, an instrumentation trace of the addresses on which
`get_serial` was invoked, in order. -/
structure Stats where
  count_nsip : Nat
  serial_list : List Nat
  probed : List String
deriving DecidableEq

/-- The statistics at program start. -/
def Stats.init : Stats := ⟨0, [], []⟩

/-- The external world of one run: `resolv` is `get_ip` (empty list on
resolution failure), `net` gives each address's network behaviour, and
`zone_nsset` is the zone's NS record set as returned by the stub resolver. -/
structure World where
  resolv : String → List String
  net : String → HostNet
  zone_nsset : List String

/-- One iteration of the inner loop of `check_all_ns`: count the address,
probe it, and append the serial on success. `Except.error` is an uncaught
exception inside `get_serial`, carrying the statistics at the crash. -/
def probe_addr (cfg : Config) (w : World) (nsip : String) (st : Stats) :
    Except Stats Stats :=
  let st1 : Stats := ⟨st.count_nsip + 1, st.serial_list, st.probed ++ [nsip]⟩
  match get_serial cfg (w.net nsip) with
  | .error () => .error st1
  | .ok res =>
    match res.serial with
    | some s => .ok ⟨st1.count_nsip, st1.serial_list ++ [s], st1.probed⟩
    | none => .ok st1

/-- The inner loop of `check_all_ns` over one name's resolved addresses. -/
def probe_addrs (cfg : Config) (w : World) (ips : List String) (st : Stats) :
    Except Stats Stats :=
  match ips with
  | [] => .ok st
  | ip :: rest =>
    match probe_addr cfg w ip st with
    | .error st1 => .error st1
    | .ok st1 => probe_addrs cfg w rest st1

/-- `check_all_ns`: resolve each name and probe each of its addresses. -/
def check_all_ns (cfg : Config) (w : World) (names : List String) (st : Stats) :
    Except Stats Stats :=
  match names with
  | [] => .ok st
  | n :: rest =>
    match probe_addrs cfg w (w.resolv n) st with
    | .error st1 => .error st1
    | .ok st1 => check_all_ns cfg w rest st1

/-- How `check_master` aborts the run: `crash` is an uncaught exception (the
`get_ip(...)[0]` `IndexError` when the master name resolves to no address, or
the NSID `AttributeError` inside `get_serial`); `exit3` is `sys.exit(3)`. -/
inductive MasterAbort where
  | crash
  | exit3
deriving DecidableEq

/-- `check_master`: when a master is configured, take its first resolved
address, count and probe it; exit 3 if no serial was obtained, otherwise
append the master serial to the list. Returns the master serial (the drift
baseline) alongside the updated statistics. -/
def check_master (cfg : Config) (w : World) (st : Stats) :
    Except (MasterAbort × Stats) (Stats × Option Nat) :=
  match cfg.master with
  | none => .ok (st, none)
  | some m =>
    match w.resolv m with
    | [] => .error (.crash, st)
    | ip :: _ =>
      let st1 : Stats := ⟨st.count_nsip + 1, st.serial_list, st.probed ++ [ip]⟩
      match get_serial cfg (w.net ip) with
      | .error () => .error (.crash, st1)
      | .ok res =>
        match res.serial with
        | none => .error (.exit3, st1)
        | some s => .ok (⟨st1.count_nsip, st1.serial_list ++ [s], st1.probed⟩, some s)

/-- The observable end of a run: a normal `sys.exit` with a code, or an
uncaught Python exception. -/
inductive RunResult where
  | crashed
  | exited (code : Nat)
deriving DecidableEq

/-- The `__main__` block: compute the name list, check the master, probe all
names, and exit with the computed code. Paired with the final statistics (for
a crash, the statistics at the point of the crash). -/
def main_run (cfg : Config) (w : World) : RunResult × Stats :=
  match get_nsnames cfg.no_nsset cfg.additional w.zone_nsset with
  | .error () => (.exited 4, Stats.init)
  | .ok names =>
    match check_master cfg w Stats.init with
    | .error (.crash, st) => (.crashed, st)
    | .error (.exit3, st) => (.exited 3, st)
    | .ok (st, _) =>
      match check_all_ns cfg w names st with
      | .error st1 => (.crashed, st1)
      | .ok st1 =>
        match get_exit_code st1.count_nsip st1.serial_list cfg.allowed_drift with
        | none => (.crashed, st1)
        | some c => (.exited c, st1)

/-! ### Concrete sample data used by the witness theorems -/

/-- A well-formed authoritative SOA response carrying serial `s`. -/
def resp_ok (s : Nat) : Response :=
  ⟨0, true, false, [⟨SOA_RDTYPE, s⟩], []⟩

/-- A truncated UDP response (TC flag set). -/
def resp_tc : Response :=
  ⟨0, true, true, [], []⟩

/-- A server that never answers on any transport. -/
def net_silent : HostNet :=
  ⟨fun _ _ => none, fun _ _ => none, false⟩

/-- A server that answers every UDP attempt with `resp_ok s`. -/
def net_answer (s : Nat) : HostNet :=
  ⟨fun _ _ => some (resp_ok s), fun _ _ => none, false⟩

/-- A server whose UDP answer is truncated and whose TCP answer is
`resp_ok s`. -/
def net_tc_then (s : Nat) : HostNet :=
  ⟨fun _ _ => some resp_tc, fun _ _ => some (resp_ok s), false⟩

/-- A baseline configuration: UDP with 3 retries, no options, no master. -/
def cfg_plain : Config :=
  { use_tcp := false, retries := 3, want_dnssec := false, nsid := false,
    allowed_drift := 0, master := none, no_nsset := false, additional := [] }

/-- `cfg_plain` with NSID querying enabled (`-i`). -/
def cfg_nsid : Config := { cfg_plain with nsid := true }

/-- `cfg_plain` with a master configured (`-m m.example.`). -/
def cfg_master : Config := { cfg_plain with master := some "m.example." }

/-- A world whose master (and every other name) resolves to one address that
never answers. -/
def world_master_silent : World :=
  { resolv := fun _ => ["192.0.2.1"], net := fun _ => net_silent,
    zone_nsset := ["a.example."] }

/-- A world whose every name resolves to one address answering serial 7. -/
def world_answer7 : World :=
  { resolv := fun _ => ["192.0.2.1"], net := fun _ => net_answer 7,
    zone_nsset := ["a.example."] }

/-! ### Verdict engine: claims C1 and C2 -/

/-- C2: whenever the attempted address count differs from the number of
successful serials, `get_exit_code` returns 2, regardless of the serial
values or the allowed drift — the count check is applied before any serial
comparison. -/
theorem get_exit_code_partial_failure (count : Nat) (l : List Nat) (d : Int)
    (h : count ≠ l.length) : get_exit_code count l d = some 2 := by
  simp [get_exit_code, h]

/-- Witness for `get_exit_code_partial_failure` at a concrete input. -/
theorem get_exit_code_partial_failure_witness :
    get_exit_code 1 [] 0 = some 2 :=
  get_exit_code_partial_failure 1 [] 0 (by decide)

/-- C1 counterexample: a run with zero attempted addresses has equal counts
and a success list whose serials are all (vacuously) identical, yet the exit
code is not 0: `Stats.SERIAL_LIST[0]` raises `IndexError`, modelled by
`none`. -/
theorem get_exit_code_empty_counterexample :
    0 = ([] : List Nat).length ∧
      (∀ x ∈ ([] : List Nat), ∀ y ∈ ([] : List Nat), x = y) ∧
      get_exit_code 0 [] 0 = none :=
  ⟨rfl, by simp, rfl⟩

/-- C1 (amended): when the attempted count equals the number of successes and
at least one serial was obtained, the exit code is 0 if all serials are
identical (checked first), else 1 if `max - min` exceeds the allowed drift
and 0 otherwise. -/
theorem get_exit_code_verdict (count : Nat) (l : List Nat) (d : Int)
    (heq : count = l.length) (hne : l ≠ []) :
    ((∀ x ∈ l, ∀ y ∈ l, x = y) → get_exit_code count l d = some 0) ∧
    (¬ (∀ x ∈ l, ∀ y ∈ l, x = y) →
      (((pymax l : Int) - (pymin l : Int) > d → get_exit_code count l d = some 1) ∧
       ((pymax l : Int) - (pymin l : Int) ≤ d → get_exit_code count l d = some 0))) := by
  obtain ⟨s0, rest, rfl⟩ : ∃ s0 rest, l = s0 :: rest := by
    cases l with
    | nil => exact absurd rfl hne
    | cons a as => exact ⟨a, as, rfl⟩
  have hmem : s0 ∈ s0 :: rest := List.mem_cons_self _ _
  constructor
  · intro hall
    have hcnt : (s0 :: rest).count s0 = (s0 :: rest).length :=
      List.count_eq_length.mpr (fun b hb => hall s0 hmem b hb)
    simp [get_exit_code, heq, hcnt]
  · intro hnall
    have hcnt : (s0 :: rest).count s0 ≠ (s0 :: rest).length := by
      intro hc
      exact hnall (fun x hx y hy =>
        ((List.count_eq_length.mp hc x hx).symm.trans (List.count_eq_length.mp hc y hy)))
    have hcnt' : ¬ List.count s0 rest = rest.length := by simpa using hcnt
    constructor
    · intro hgt
      simp [get_exit_code, heq, hcnt', hgt]
    · intro hle
      simp [get_exit_code, heq, hcnt', not_lt.mpr hle]

/-- Witness for `get_exit_code_verdict` at a concrete input: two serials 5
and 7 with allowed drift 1 give exit code 1. -/
theorem get_exit_code_verdict_witness :
    ¬ (∀ x ∈ [5, 7], ∀ y ∈ [5, 7], x = y) ∧ get_exit_code 2 [5, 7] 1 = some 1 :=
  ⟨by decide,
    (((get_exit_code_verdict 2 [5, 7] 1 (by decide) (by decide)).2
      (by decide)).1 (by decide))⟩

/-! ### Steady-state crashes: claim C4 -/

/-- C4: two per-server failures the spec requires to degrade gracefully are
not recovered by the code. With NSID printing enabled, a server that never
responds makes `get_serial` dereference `resp.options` on `None`, an uncaught
`AttributeError` (modelled by `Except.error ()`); and a run whose names all
yield zero attempted addresses makes `get_exit_code` index an empty list, an
uncaught `IndexError` (modelled by `none`). -/
theorem steady_state_crashes :
    get_serial cfg_nsid net_silent = .error () ∧ get_exit_code 0 [] 0 = none :=
  ⟨rfl, rfl⟩

/-! ### Candidate name list: claim C5 -/

/-- C5 counterexample: with override list `["b."]` and zone NS set `["a."]`
the candidate list returned is `["b.", "a."]`, which is not sorted by name —
the override names are prepended unsorted, so the claim's "merge sorted by
name" fails. -/
theorem get_nsnames_counterexample :
    get_nsnames false ["b."] ["a."] = Except.ok ["b.", "a."] ∧
      ¬ List.Sorted (· ≤ ·) ["b.", "a."] := by
  refine ⟨rfl, ?_⟩
  simp [List.Sorted, List.pairwise_cons, String.le_iff_toList_le]
  decide

/-- C5 (amended): when the zone's NS set is not skipped, the candidate list
is the explicit override list followed by the zone's NS names sorted by name
(a sorted permutation of the NS set); the override portion is not sorted and
the concatenation need not be globally sorted. -/
theorem get_nsnames_merge (additional nsset : List String) :
    ∃ s : List String, get_nsnames false additional nsset = .ok (additional ++ s) ∧
      s.Perm nsset ∧ List.Sorted (· ≤ ·) s :=
  ⟨nsset.insertionSort (· ≤ ·), rfl, List.perm_insertionSort _ _,
    List.sorted_insertionSort _ _⟩

/-! ### UDP retry loop: claim C6 -/

/-- Specification of the retry loop starting at attempt `idx` with budget
`r`: the attempt counter stays within the budget, exhaustion returns `none`,
and a returned response is the first reply. -/
lemma send_query_udp_go_spec (net : Nat → Option Response) :
    ∀ r idx : Nat,
      (idx ≤ (send_query_udp_go net idx r).2 ∧
        (send_query_udp_go net idx r).2 ≤ idx + r) ∧
      ((∀ i, idx ≤ i → i < idx + r → net i = none) →
        send_query_udp_go net idx r = (none, idx + r)) ∧
      (∀ resp, (send_query_udp_go net idx r).1 = some resp →
        ∃ j, idx ≤ j ∧ j < idx + r ∧ net j = some resp ∧
          (∀ i, idx ≤ i → i < j → net i = none) ∧
          (send_query_udp_go net idx r).2 = j + 1) := by
  intro r
  induction r with
  | zero =>
    intro idx
    refine ⟨⟨le_refl _, by simp [send_query_udp_go]⟩,
      fun _ => by simp [send_query_udp_go], ?_⟩
    intro resp hresp
    simp [send_query_udp_go] at hresp
  | succ r ih =>
    intro idx
    cases hnet : net idx with
    | some resp0 =>
      refine ⟨⟨?_, ?_⟩, ?_, ?_⟩
      · simp only [send_query_udp_go, hnet]; omega
      · simp only [send_query_udp_go, hnet]; omega
      · intro hall
        exact absurd (hall idx (le_refl _) (by omega)) (by simp [hnet])
      · intro resp hresp
        simp only [send_query_udp_go, hnet] at hresp
        obtain rfl : resp0 = resp := by cases hresp; rfl
        refine ⟨idx, le_refl _, by omega, hnet, ?_, ?_⟩
        · intro i h1 h2; omega
        · simp only [send_query_udp_go, hnet]
    | none =>
      have ih1 := ih (idx + 1)
      refine ⟨⟨?_, ?_⟩, ?_, ?_⟩
      · simp only [send_query_udp_go, hnet]
        have := ih1.1.1; omega
      · simp only [send_query_udp_go, hnet]
        have := ih1.1.2; omega
      · intro hall
        simp only [send_query_udp_go, hnet]
        have heq : send_query_udp_go net (idx + 1) r = (none, idx + 1 + r) :=
          ih1.2.1 (fun i h1 h2 => hall i (by omega) (by omega))
        rw [heq]
        exact congrArg _ (by omega)
      · intro resp hresp
        simp only [send_query_udp_go, hnet] at hresp
        obtain ⟨j, hj1, hj2, hj3, hj4, hj5⟩ := ih1.2.2 resp hresp
        refine ⟨j, by omega, by omega, hj3, ?_, ?_⟩
        · intro i h1 h2
          rcases Nat.lt_or_ge i (idx + 1) with hi | hi
          · have hieq : i = idx := by omega
            subst hieq; exact hnet
          · exact hj4 i hi h2
        · simp only [send_query_udp_go, hnet]; exact hj5

/-- C6: the UDP sender makes at most `retries` total attempts (including the
first), stops at the first reply and returns it, and returns `none` exactly
when every attempt in the budget times out; the loop is a total function, so
it always terminates. -/
theorem send_query_udp_bounded (net : Nat → Option Response) (retries : Nat) :
    (send_query_udp net retries).2 ≤ retries ∧
    ((∀ i, i < retries → net i = none) →
      send_query_udp net retries = (none, retries)) ∧
    (∀ resp, (send_query_udp net retries).1 = some resp →
      ∃ j, j < retries ∧ net j = some resp ∧ (∀ i, i < j → net i = none) ∧
        (send_query_udp net retries).2 = j + 1) := by
  have h := send_query_udp_go_spec net retries 0
  refine ⟨by simpa using h.1.2, ?_, ?_⟩
  · intro hall
    have := h.2.1 (fun i _ h2 => hall i (by omega))
    simpa using this
  · intro resp hresp
    obtain ⟨j, _, hj2, hj3, hj4, hj5⟩ := h.2.2 resp hresp
    exact ⟨j, by omega, hj3, fun i h2 => hj4 i (by omega) h2, hj5⟩

/-- Witness for `send_query_udp_bounded`: a server that never answers with
budget 3 yields `none` after exactly 3 attempts. -/
theorem send_query_udp_bounded_witness :
    send_query_udp (fun _ => none) 3 = (none, 3) :=
  (send_query_udp_bounded (fun _ => none) 3).2.1 (fun _ _ => rfl)

/-! ### TCP sender: claim C9 -/

/-- C9: the TCP sender makes exactly one attempt: its result is the outcome
of attempt 0 (`none` on a timeout), and no retry is performed — any two
attempt streams that agree on attempt 0 give the same result, independently
of any configured retry budget. -/
theorem send_query_tcp_single_attempt (net net2 : Nat → Option Response) :
    (send_query_tcp net).2 = 1 ∧ (send_query_tcp net).1 = net 0 ∧
      (net 0 = net2 0 → send_query_tcp net = send_query_tcp net2) := by
  refine ⟨rfl, rfl, ?_⟩
  intro h
  simp [send_query_tcp, h]

/-- Witness for `send_query_tcp_single_attempt`: a server whose later TCP
attempts would answer behaves like one that never answers. -/
theorem send_query_tcp_single_attempt_witness :
    send_query_tcp (fun i => if i = 0 then none else some resp_tc) =
      send_query_tcp (fun _ => none) :=
  (send_query_tcp_single_attempt _ _).2.2 rfl

/-! ### UDP to TCP escalation: claim C7 -/

/-- C7: when not in TCP-only mode and the UDP phase yields a response with
the TC flag set, `send_query` re-sends the identical query message over TCP
and returns the TCP outcome (or `none` on a TCP timeout) instead of the
truncated UDP response. -/
theorem send_query_truncation_fallback (cfg : Config) (h : HostNet)
    (r : Response)
    (htcp : cfg.use_tcp = false)
    (hudp : (send_query_udp (h.udpAt (make_query cfg)) cfg.retries).1 = some r)
    (htc : r.flagTC = true) :
    send_query cfg h = (send_query_tcp (h.tcpAt (make_query cfg))).1 := by
  simp [send_query, htcp, hudp, htc]

/-- Witness for `send_query_truncation_fallback`: a truncated UDP answer
followed by a TCP answer with serial 9 makes `send_query` return the TCP
response. -/
theorem send_query_truncation_fallback_witness :
    send_query cfg_plain (net_tc_then 9) = some (resp_ok 9) :=
  (send_query_truncation_fallback cfg_plain (net_tc_then 9) resp_tc
    rfl rfl rfl).trans rfl

/-! ### Response validation: claim C8 -/

/-- `find?` returns the first RRset of SOA type when the answer section is a
block of non-SOA sets followed by an SOA set. -/
lemma find_first_soa (pre post : List RRset) (rr : RRset)
    (hpre : ∀ x ∈ pre, x.rdtype ≠ SOA_RDTYPE) (hrr : rr.rdtype = SOA_RDTYPE) :
    (pre ++ rr :: post).find? (fun x => x.rdtype == SOA_RDTYPE) = some rr := by
  induction pre with
  | nil => simp [List.find?, hrr]
  | cons a as ih =>
    have ha : (a.rdtype == SOA_RDTYPE) = false := by
      simp [hpre a (List.mem_cons_self _ _)]
    simp only [List.cons_append, List.find?, ha]
    exact ih (fun x hx => hpre x (List.mem_cons_of_mem _ hx))

/-- C8: `get_serial` validates the chosen response in a fixed order with
short-circuiting, each failure yielding a distinct message and no serial:
(a) no response at all, (b) non-zero response code, (c) AA flag clear,
(d) TC flag still set, (e) no SOA record in the answer section; only when
every check passes is the serial of the first SOA answer RRset returned,
with no error message. -/
theorem get_serial_validation_order (cfg : Config) (h : HostNet)
    (hsock : h.sockErr = false) :
    (send_query cfg h = none → cfg.nsid = false →
      get_serial cfg h = .ok ⟨none, none, some .noAnswer⟩) ∧
    (∀ r, send_query cfg h = some r → r.rcode ≠ 0 →
      (get_serial cfg h).map (fun p => (p.serial, p.errmsg)) =
        .ok (none, some .badRcode)) ∧
    (∀ r, send_query cfg h = some r → r.rcode = 0 → r.flagAA = false →
      (get_serial cfg h).map (fun p => (p.serial, p.errmsg)) =
        .ok (none, some .notAuthoritative)) ∧
    (∀ r, send_query cfg h = some r → r.rcode = 0 → r.flagAA = true →
      r.flagTC = true →
      (get_serial cfg h).map (fun p => (p.serial, p.errmsg)) =
        .ok (none, some .answerTruncated)) ∧
    (∀ r, send_query cfg h = some r → r.rcode = 0 → r.flagAA = true →
      r.flagTC = false → (∀ x ∈ r.answer, x.rdtype ≠ SOA_RDTYPE) →
      (get_serial cfg h).map (fun p => (p.serial, p.errmsg)) =
        .ok (none, some .noSoaRecord)) ∧
    (∀ r pre rr post, send_query cfg h = some r → r.rcode = 0 →
      r.flagAA = true → r.flagTC = false →
      r.answer = pre ++ rr :: post → (∀ x ∈ pre, x.rdtype ≠ SOA_RDTYPE) →
      rr.rdtype = SOA_RDTYPE →
      (get_serial cfg h).map (fun p => (p.serial, p.errmsg)) =
        .ok (some rr.serial0, none)) := by
  refine ⟨?_, ?_, ?_, ?_, ?_, ?_⟩
  · intro hr hnsid
    simp [get_serial, hsock, hr, hnsid]
  · intro r hr hrc
    cases hnsid : cfg.nsid <;>
      simp [get_serial, hsock, hr, hrc, hnsid, Except.map]
  · intro r hr hrc haa
    cases hnsid : cfg.nsid <;>
      simp [get_serial, hsock, hr, hrc, haa, hnsid, Except.map]
  · intro r hr hrc haa htc
    cases hnsid : cfg.nsid <;>
      simp [get_serial, hsock, hr, hrc, haa, htc, hnsid, Except.map]
  · intro r hr hrc haa htc hnone
    have hfind : r.answer.find? (fun x => x.rdtype == SOA_RDTYPE) = none :=
      List.find?_eq_none.mpr (fun x hx => by simp [hnone x hx])
    cases hnsid : cfg.nsid <;>
      simp [get_serial, hsock, hr, hrc, haa, htc, hfind, hnsid, Except.map]
  · intro r pre rr post hr hrc haa htc hans hpre hrr
    have hfind : r.answer.find? (fun x => x.rdtype == SOA_RDTYPE) = some rr := by
      rw [hans]; exact find_first_soa pre post rr hpre hrr
    cases hnsid : cfg.nsid <;>
      simp [get_serial, hsock, hr, hrc, haa, htc, hfind, hnsid, Except.map]

/-- Witness for `get_serial_validation_order`: a valid authoritative SOA
response with serial 7 passes every check and yields serial 7. -/
theorem get_serial_validation_order_witness :
    (get_serial cfg_plain (net_answer 7)).map (fun p => (p.serial, p.errmsg)) =
      .ok (some 7, none) :=
  (get_serial_validation_order cfg_plain (net_answer 7) rfl).2.2.2.2.2
    (resp_ok 7) [] ⟨SOA_RDTYPE, 7⟩ [] rfl rfl rfl rfl rfl (by simp) rfl

/-! ### Master failure: claim C3 -/

/-- C3: with a master configured whose name resolves to at least one address
and whose probe completes with no serial, the run terminates with exit code 3
and the only address ever probed is the master's first address: no ordinary
nameserver probing occurs. -/
theorem master_failure_exits_3 (cfg : Config) (w : World) (m ip : String)
    (rest names : List String) (res : ProbeResult)
    (hm : cfg.master = some m)
    (hresolv : w.resolv m = ip :: rest)
    (hnames : get_nsnames cfg.no_nsset cfg.additional w.zone_nsset = .ok names)
    (hprobe : get_serial cfg (w.net ip) = .ok res)
    (hser : res.serial = none) :
    main_run cfg w = (.exited 3, ⟨1, [], [ip]⟩) := by
  simp [main_run, hnames, check_master, hm, hresolv, hprobe, hser, Stats.init]

/-- Witness for `master_failure_exits_3`: a silent master makes the run exit
3 with only the master's address probed. -/
theorem master_failure_exits_3_witness :
    main_run cfg_master world_master_silent =
      (.exited 3, ⟨1, [], ["192.0.2.1"]⟩) :=
  master_failure_exits_3 cfg_master world_master_silent "m.example."
    "192.0.2.1" [] ["a.example."] ⟨none, none, some .noAnswer⟩
    rfl rfl rfl rfl rfl

/-! ### Master participation and the count invariant: claim C10 -/

/-- Probing one address increments the attempted count by one and appends at
most one serial, so it preserves `length serial_list ≤ count_nsip`. -/
lemma probe_addr_inv (cfg : Config) (w : World) (ip : String) (st st1 : Stats)
    (hok : probe_addr cfg w ip st = .ok st1)
    (hinv : st.serial_list.length ≤ st.count_nsip) :
    st1.serial_list.length ≤ st1.count_nsip := by
  unfold probe_addr at hok
  cases hg : get_serial cfg (w.net ip) with
  | error e =>
    cases e
    simp only [hg] at hok
    exact Except.noConfusion hok
  | ok res =>
    simp only [hg] at hok
    cases hs : res.serial with
    | some s =>
      simp only [hs, Except.ok.injEq] at hok
      subst hok
      simp only [List.length_append, List.length_singleton]
      omega
    | none =>
      simp only [hs, Except.ok.injEq] at hok
      subst hok
      simpa using Nat.le_succ_of_le hinv

/-- The inner probing loop preserves the count invariant. -/
lemma probe_addrs_inv (cfg : Config) (w : World) :
    ∀ (ips : List String) (st st1 : Stats),
      probe_addrs cfg w ips st = .ok st1 →
      st.serial_list.length ≤ st.count_nsip →
      st1.serial_list.length ≤ st1.count_nsip := by
  intro ips
  induction ips with
  | nil =>
    intro st st1 hok hinv
    unfold probe_addrs at hok
    simp only [Except.ok.injEq] at hok
    subst hok
    exact hinv
  | cons ip rest ih =>
    intro st st1 hok hinv
    unfold probe_addrs at hok
    cases hp : probe_addr cfg w ip st with
    | error e =>
      simp only [hp] at hok
      exact Except.noConfusion hok
    | ok st2 =>
      simp only [hp] at hok
      exact ih st2 st1 hok (probe_addr_inv cfg w ip st st2 hp hinv)

/-- `check_all_ns` preserves the count invariant. -/
lemma check_all_ns_inv (cfg : Config) (w : World) :
    ∀ (names : List String) (st st1 : Stats),
      check_all_ns cfg w names st = .ok st1 →
      st.serial_list.length ≤ st.count_nsip →
      st1.serial_list.length ≤ st1.count_nsip := by
  intro names
  induction names with
  | nil =>
    intro st st1 hok hinv
    unfold check_all_ns at hok
    simp only [Except.ok.injEq] at hok
    subst hok
    exact hinv
  | cons n rest ih =>
    intro st st1 hok hinv
    unfold check_all_ns at hok
    cases hp : probe_addrs cfg w (w.resolv n) st with
    | error e =>
      simp only [hp] at hok
      exact Except.noConfusion hok
    | ok st2 =>
      simp only [hp] at hok
      exact ih st2 st1 hok (probe_addrs_inv cfg w (w.resolv n) st st2 hp hinv)

/-- A successful `check_master` preserves the count invariant. -/
lemma check_master_inv (cfg : Config) (w : World) (st st1 : Stats)
    (x : Option Nat)
    (hok : check_master cfg w st = .ok (st1, x))
    (hinv : st.serial_list.length ≤ st.count_nsip) :
    st1.serial_list.length ≤ st1.count_nsip := by
  unfold check_master at hok
  cases hm : cfg.master with
  | none =>
    simp only [hm, Except.ok.injEq, Prod.mk.injEq] at hok
    obtain ⟨rfl, -⟩ := hok
    exact hinv
  | some m =>
    simp only [hm] at hok
    cases hr : w.resolv m with
    | nil =>
      simp only [hr] at hok
      exact Except.noConfusion hok
    | cons ip rest =>
      simp only [hr] at hok
      cases hg : get_serial cfg (w.net ip) with
      | error e =>
        cases e
        simp only [hg] at hok
        exact Except.noConfusion hok
      | ok res =>
        simp only [hg] at hok
        cases hs : res.serial with
        | none =>
          simp only [hs] at hok
          exact Except.noConfusion hok
        | some s =>
          simp only [hs, Except.ok.injEq, Prod.mk.injEq] at hok
          obtain ⟨rfl, -⟩ := hok
          simp only [List.length_append, List.length_singleton]
          omega

/-- C10: a master whose probe succeeds is accounted exactly like an ordinary
probed server: its address is counted in the attempted total and its serial
appended to the success list; and every probing step — the master probe, a
single ordinary probe, and the whole per-name survey — preserves the
invariant that the success-list length never exceeds the attempted count. -/
theorem master_counted_and_invariant :
    (∀ cfg w st m ip rest res s, cfg.master = some m →
      w.resolv m = ip :: rest → get_serial cfg (w.net ip) = .ok res →
      res.serial = some s →
      check_master cfg w st =
        .ok (⟨st.count_nsip + 1, st.serial_list ++ [s], st.probed ++ [ip]⟩,
          some s)) ∧
    (∀ cfg w ip st st1, probe_addr cfg w ip st = .ok st1 →
      st.serial_list.length ≤ st.count_nsip →
      st1.serial_list.length ≤ st1.count_nsip) ∧
    (∀ cfg w st st1 x, check_master cfg w st = .ok (st1, x) →
      st.serial_list.length ≤ st.count_nsip →
      st1.serial_list.length ≤ st1.count_nsip) ∧
    (∀ cfg w names st st1, check_all_ns cfg w names st = .ok st1 →
      st.serial_list.length ≤ st.count_nsip →
      st1.serial_list.length ≤ st1.count_nsip) := by
  refine ⟨?_, probe_addr_inv, check_master_inv, check_all_ns_inv⟩
  intro cfg w st m ip rest res s hm hr hg hs
  simp [check_master, hm, hr, hg, hs]

/-- Witness for `master_counted_and_invariant`: a master answering serial 7
is counted once and its serial appended to the (initially empty) success
list. -/
theorem master_counted_and_invariant_witness :
    check_master cfg_master world_answer7 Stats.init =
      .ok (⟨1, [7], ["192.0.2.1"]⟩, some 7) := by
  have h := master_counted_and_invariant.1 cfg_master world_answer7 Stats.init
    "m.example." "192.0.2.1" [] ⟨some 7, none, none⟩ 7 rfl rfl rfl rfl
  simpa [Stats.init] using h

end CheckSerial
